import Mathlib

/-!
Verification of the aspose-mcp-preview protocol engine: a shallow embedding of
the frame parser / protocol state machine (src/protocol/parser.js), the CRC-32
checksum, the transport backends (src/protocol/transport/mmap.js), the session
registry (src/session/store.js) and the command handler (src/protocol/command.js),
together with theorems settling the specification's claims about them.

Buffers are lists of byte values (Nat, each < 256 in any real run).  External
effects (stdout responses and host callbacks) are recorded as an ordered event
list.  Node library functions that are not part of the repository (JSON.parse,
fs.readFile, the koffi foreign calls) are supplied as oracle parameters in a
`ParserEnv` record, mirroring the imports of parser.js.
-/

namespace AsposePreview

/-- Snapshot/message metadata as produced by decoding one JSON line.  All
fields are optional because JSON objects may omit any of them. -/
structure Metadata where
  type : Option String := none
  sessionId : Option String := none
  documentType : Option String := none
  originalPath : Option String := none
  outputFormat : Option String := none
  mimeType : Option String := none
  timestamp : Option String := none
  sequenceNumber : Option Int := none
  transportMode : Option String := none
  filePath : Option String := none
  mmapName : Option String := none
  dataSize : Option Int := none
  checksum : Option Nat := none
  commandId : Option String := none
  commandType : Option String := none
  protocolVersion : Option String := none
  deriving Repr, DecidableEq

/-- Observable effects of the parser, in emission order: lines written to
stdout (initialize_response, ack, pong, command_result) and host callbacks
(onSnapshot, onHeartbeat, onSessionClosed, onSessionUnbound, onShutdown,
onInitialized, onError). -/
inductive Event where
  | initResponse
  | ack (sequenceNumber : Option Int)
  | pong
  | commandResult (commandId : String) (success : Bool)
      (result : Option String) (err : Option String)
  | onSnapshot (metadata : Metadata) (data : List Nat)
  | onHeartbeat
  | onSessionClosed (sessionId : Option String)
  | onSessionUnbound (sessionId : Option String)
  | onShutdown
  | onInitialized
  | onError (message : String)
  deriving Repr, DecidableEq

/-- The parser's mutable state: the append-only byte buffer, the module-level
`handshakeComplete` flag, the `started` flag, and the events emitted so far. -/
structure ParserState where
  buffer : List Nat
  handshakeComplete : Bool
  started : Bool
  events : List Event
  deriving Repr, DecidableEq

/-- JavaScript string falsiness for optional string fields: `undefined` and
the empty string are falsy. -/
def strFalsy : Option String → Bool
  | none => true
  | some s => s = ""

/-- Template-literal stringification of an optional string (`undefined` when
absent), as in backquoted JS strings. -/
def jsShow : Option String → String
  | none => "undefined"
  | some s => s

/-- `metadata.transportMode || defaultTransport` from parser.js. -/
def resolveTransportMode (defaultTransport : String) (m : Metadata) : String :=
  match m.transportMode with
  | none => defaultTransport
  | some s => if s = "" then defaultTransport else s

/-- `Buffer.prototype.indexOf` for a single byte: index of first occurrence. -/
def bufferIndexOf (needle : Nat) : List Nat → Option Nat
  | [] => none
  | b :: bs => if b = needle then some 0 else (bufferIndexOf needle bs).map (· + 1)

/-- Little-endian value of a byte list. -/
def bytesToNatLE : List Nat → Nat
  | [] => 0
  | b :: bs => b + 256 * bytesToNatLE bs

/-- `Buffer.prototype.readBigInt64LE`: 8 bytes at `off`, little-endian,
two's-complement signed. -/
def readBigInt64LE (buf : List Nat) (off : Nat) : Int :=
  let u := bytesToNatLE ((buf.drop off).take 8)
  if u < 2 ^ 63 then (u : Int) else (u : Int) - 2 ^ 64

/-- The 8-byte little-endian encoding of a length, as used by the wire
format's inline length field. -/
def int64LE (n : Nat) : List Nat :=
  [n % 256, n / 256 % 256, n / 256 ^ 2 % 256, n / 256 ^ 3 % 256,
   n / 256 ^ 4 % 256, n / 256 ^ 5 % 256, n / 256 ^ 6 % 256, n / 256 ^ 7 % 256]

/-- TypedArray index clamping used by `Buffer.prototype.subarray`: negative
indices count from the end, and indices are clamped to the length. -/
def jsIndex (len : Nat) (i : Int) : Nat :=
  if i < 0 then ((len : Int) + i).toNat else min i.toNat len

/-- `buf.subarray(start, stop)`. -/
def jsSubarray (buf : List Nat) (start fin : Int) : List Nat :=
  (buf.take (jsIndex buf.length fin)).drop (jsIndex buf.length start)

/-- `buf.subarray(start)`. -/
def jsSubarrayFrom (buf : List Nat) (start : Int) : List Nat :=
  buf.drop (jsIndex buf.length start)

/-! CRC-32 (calculateCRC32 / getCRC32Table in parser.js).  JS bitwise
operators act on 32-bit values; all intermediate values here stay below
2^32, so plain Nat arithmetic is congruent to the JS computation. -/

/-- One bit-step of the table generator's inner loop:
`c = c & 1 ? 0xedb88320 ^ (c >>> 1) : c >>> 1`. -/
def crc32Step (c : Nat) : Nat :=
  if c % 2 = 1 then 0xedb88320 ^^^ (c / 2) else c / 2

/-- One entry of the CRC table: 8 bit-steps applied to the index. -/
def crc32TableEntry (i : Nat) : Nat := crc32Step^[8] i

/-- The 256-entry lookup table built by `getCRC32Table` (a process-wide
constant, computed once). -/
def crc32Table : List Nat := (List.range 256).map crc32TableEntry

/-- `calculateCRC32`: table-driven update
`crc = (crc >>> 8) ^ table[(crc ^ data[i]) & 0xff]`, initial and final XOR
`0xffffffff`. -/
def calculateCRC32 (data : List Nat) : Nat :=
  (data.foldl (fun crc b => (crc / 256) ^^^ (crc32Table.getD ((crc ^^^ b) % 256) 0))
    0xffffffff) ^^^ 0xffffffff

/-- Modelled from the spec: the reference reflected CRC-32 — XOR each byte
into the register and apply eight single-bit steps with polynomial
0xEDB88320, with initial and final XOR value 0xFFFFFFFF. -/
def crc32Spec (data : List Nat) : Nat :=
  (data.foldl (fun crc b => crc32Step^[8] (crc ^^^ b)) 0xffffffff) ^^^ 0xffffffff

/-! Session registry (src/session/store.js).  `Map` is modelled as an
association list with `Map.prototype.set` semantics: replace in place when
the key exists, append otherwise. -/

/-- A stored session record: exactly the fields built by
`SessionStore.updateSnapshot`. -/
structure SessionSnapshot where
  sessionId : Option String
  documentType : Option String
  originalPath : Option String
  outputFormat : Option String
  mimeType : Option String
  timestamp : Option String
  sequenceNumber : Option Int
  data : List Nat
  hasUpdate : Bool
  deriving Repr, DecidableEq

/-- The record object literal constructed inside `updateSnapshot`. -/
def mkSessionSnapshot (sessionId : Option String) (m : Metadata) (data : List Nat) :
    SessionSnapshot :=
  { sessionId := sessionId, documentType := m.documentType,
    originalPath := m.originalPath, outputFormat := m.outputFormat,
    mimeType := m.mimeType, timestamp := m.timestamp,
    sequenceNumber := m.sequenceNumber, data := data, hasUpdate := true }

/-- The sessions map, keyed by the (possibly absent) sessionId. -/
abbrev SessionMap := List (Option String × SessionSnapshot)

/-- `Map.prototype.set`. -/
def mapSet (m : SessionMap) (k : Option String) (v : SessionSnapshot) : SessionMap :=
  if m.any (fun p => p.1 == k) then m.map (fun p => if p.1 == k then (k, v) else p)
  else m ++ [(k, v)]

/-- `Map.prototype.get`. -/
def mapGet (m : SessionMap) (k : Option String) : Option SessionSnapshot :=
  match m.find? (fun p => p.1 == k) with
  | some p => some p.2
  | none => none

/-- `SessionStore.updateSnapshot`. -/
def updateSnapshot (store : SessionMap) (sessionId : Option String) (m : Metadata)
    (data : List Nat) : SessionMap :=
  mapSet store sessionId (mkSessionSnapshot sessionId m data)

/-- `SessionStore.getSession`. -/
def getSession (store : SessionMap) (sessionId : Option String) :
    Option SessionSnapshot :=
  mapGet store sessionId

/-- `SessionStore.removeSession` (`Map.prototype.delete`). -/
def removeSession (store : SessionMap) (sessionId : Option String) : SessionMap :=
  store.filter (fun p => ¬ p.1 == k) where k := sessionId

/-! Command handler (src/protocol/command.js). -/

/-- `handleCommand`: drop silently when `commandId` is falsy; answer
`get_version` with the package version; answer anything else with a failed
command_result naming the unknown type. -/
def handleCommand (version : String) (m : Metadata) : List Event :=
  match m.commandId with
  | none => []
  | some cid =>
    if cid = "" then []
    else if m.commandType = some "get_version" then
      [.commandResult cid true (some version) none]
    else
      [.commandResult cid false none
        (some ("Unknown command type: " ++ jsShow m.commandType))]

/-! Shared-memory transport (src/protocol/transport/mmap.js). -/

/-- `os.platform()` outcomes distinguished by `readFromMmap`. -/
inductive Platform where
  | win32
  | linux
  | darwin
  | other (name : String)
  deriving Repr, DecidableEq

/-- Platform environment of mmap.js: the current platform, whether the koffi
bridge initialised, and oracles for the actual reads (kernel32 mapping on
Windows, `fs.readFile` elsewhere). -/
structure MmapEnv where
  platform : Platform
  windowsAvailable : Bool
  readWindows : Option String → Option Int → Except String (List Nat)
  readOSFile : String → Except String (List Nat)

/-- `readFromMmap`: dispatch on the platform; fail closed where no working
shared-memory implementation exists. -/
def readFromMmap (env : MmapEnv) (mmapName : Option String) (dataSize : Option Int)
    (filePath : Option String) : Except String (List Nat) :=
  match env.platform with
  | .win32 =>
    if env.windowsAvailable then env.readWindows mmapName dataSize
    else .error ("Windows shared memory support not available. " ++
      "Please install koffi (npm install koffi), or use stdin/file transport mode.")
  | .linux => env.readOSFile ("/dev/shm" ++ jsShow mmapName)
  | .darwin =>
    if strFalsy filePath then
      .error ("macOS mmap requires filePath in metadata. " ++
        "Please ensure aspose-mcp-server provides filePath for macOS.")
    else env.readOSFile ((jsShow filePath))
  | .other name =>
    .error ("Memory-mapped transport is not supported on platform: " ++ name ++
      ". Please use stdin or file transport mode instead.")

/-! The frame parser (createProtocolParser in parser.js). -/

/-- The parser's construction-time inputs and external collaborators: the
configured default transport, the package version used by get_version, the
JSON metadata decoder, the file transport read, and the mmap environment. -/
structure ParserEnv where
  defaultTransport : String
  version : String
  decode : List Nat → Except String Metadata
  readFile : Option String → Except String (List Nat)
  mmap : MmapEnv

/-- `parseSnapshot`: transport dispatch for a snapshot message whose metadata
line ends at `newlineIndex`.  Returns whether a frame was handled, together
with the updated state. -/
def parseSnapshot (env : ParserEnv) (m : Metadata) (newlineIndex : Nat)
    (s : ParserState) : Bool × ParserState :=
  let transportMode := resolveTransportMode env.defaultTransport m
  if transportMode = "file" then
    let buf := s.buffer.drop (newlineIndex + 1)
    match env.readFile m.filePath with
    | .ok data =>
      (true, { s with
                buffer := buf,
                events := s.events ++ [.ack m.sequenceNumber, .onSnapshot m data] })
    | .error e =>
      (true, { s with
                buffer := buf,
                events := s.events ++ [.onError ("Failed to read file: " ++ e)] })
  else if transportMode = "mmap" then
    let buf := s.buffer.drop (newlineIndex + 1)
    match readFromMmap env.mmap m.mmapName m.dataSize m.filePath with
    | .ok data =>
      (true, { s with
                buffer := buf,
                events := s.events ++ [.ack m.sequenceNumber, .onSnapshot m data] })
    | .error e =>
      (true, { s with
                buffer := buf,
                events := s.events ++ [.onError ("Failed to read mmap: " ++ e)] })
  else
    let dataStart := newlineIndex + 1
    if s.buffer.length < dataStart + 8 then (false, s)
    else
      let dataSize := readBigInt64LE s.buffer dataStart
      let totalSize : Int := (dataStart : Int) + 8 + dataSize
      if (s.buffer.length : Int) < totalSize then (false, s)
      else
        let binaryData := jsSubarray s.buffer ((dataStart : Int) + 8) totalSize
        let buf := jsSubarrayFrom s.buffer totalSize
        match m.checksum with
        | some expected =>
          let calculated := calculateCRC32 binaryData
          if calculated ≠ expected then
            (true, { s with
                      buffer := buf,
                      events := s.events ++ [.onError ("Checksum mismatch: expected " ++
                        toString expected ++ ", got " ++ toString calculated)] })
          else
            (true, { s with
                      buffer := buf,
                      events := s.events ++
                        [.ack m.sequenceNumber, .onSnapshot m binaryData] })
        | none =>
          (true, { s with
                    buffer := buf,
                    events := s.events ++
                      [.ack m.sequenceNumber, .onSnapshot m binaryData] })

/-- `parseMessage`: extract one metadata line and dispatch on its `type`. -/
def parseMessage (env : ParserEnv) (s : ParserState) : Bool × ParserState :=
  match bufferIndexOf 10 s.buffer with
  | none => (false, s)
  | some newlineIndex =>
    let rest := s.buffer.drop (newlineIndex + 1)
    match env.decode (s.buffer.take newlineIndex) with
    | .error e =>
      (true, { s with
                buffer := rest,
                events := s.events ++
                  [.onError ("Failed to parse JSON metadata: " ++ e)] })
    | .ok m =>
      if m.type = some "initialize" then
        (true, { s with buffer := rest, events := s.events ++ [.initResponse] })
      else if m.type = some "initialized" then
        (true, { s with
                  buffer := rest,
                  handshakeComplete := true,
                  events := s.events ++ [.onInitialized] })
      else if m.type = some "heartbeat" then
        (true, { s with buffer := rest, events := s.events ++ [.pong, .onHeartbeat] })
      else if m.type = some "session_closed" then
        (true, { s with
                  buffer := rest,
                  events := s.events ++ [.onSessionClosed m.sessionId] })
      else if m.type = some "session_unbound" then
        (true, { s with
                  buffer := rest,
                  events := s.events ++ [.onSessionUnbound m.sessionId] })
      else if m.type = some "shutdown" then
        (true, { s with buffer := rest, events := s.events ++ [.onShutdown] })
      else if m.type = some "snapshot" then
        parseSnapshot env m newlineIndex s
      else if m.type = some "command" then
        (true, { s with
                  buffer := rest,
                  events := s.events ++ handleCommand env.version m })
      else
        (true, { s with buffer := rest })

/-- The `while (await parseMessage())` loop, with explicit fuel; `none` means
the fuel ran out before `parseMessage` reported that no complete frame
remains (the JS loop would still be running). -/
def parseLoop (env : ParserEnv) : Nat → ParserState → Option ParserState
  | 0, _ => none
  | fuel + 1, s =>
    match parseMessage env s with
    | (false, s1) => some s1
    | (true, s1) => parseLoop env fuel s1

/-- `processData`: append the chunk to the buffer and drain complete frames.
One byte of fuel per buffered byte is enough for every terminating run,
because each handled frame consumes at least its newline byte. -/
def processData (env : ParserEnv) (s : ParserState) (data : List Nat) :
    Option ParserState :=
  parseLoop env (s.buffer.length + data.length + 1)
    { s with buffer := s.buffer ++ data }

/-- Feed a sequence of chunks through `processData`. -/
def feedAll (env : ParserEnv) (s : ParserState) : List (List Nat) → Option ParserState
  | [] => some s
  | c :: cs =>
    match processData env s c with
    | none => none
    | some s1 => feedAll env s1 cs

/-- `isReady`. -/
def isReady (s : ParserState) : Bool := s.handshakeComplete

/-- `stop`: removes the stdin listeners; touches only the `started` flag. -/
def stopParser (s : ParserState) : ParserState := { s with started := false }

/-- `start`. -/
def startParser (s : ParserState) : ParserState :=
  if s.started then s else { s with started := true }

/-- The complete wire bytes of one inline-transport snapshot frame: metadata
line, newline, 8-byte little-endian length, payload. -/
def inlineFrame (line payload : List Nat) : List Nat :=
  line ++ 10 :: (int64LE payload.length ++ payload)

/-- The host wiring in src/index.js: `onSnapshot` upserts into the session
store, `onSessionClosed`/`onSessionUnbound` remove; every other event leaves
the store untouched. -/
def applyEvent (store : SessionMap) : Event → SessionMap
  | .onSnapshot m data => updateSnapshot store m.sessionId m data
  | .onSessionClosed sid => removeSession store sid
  | .onSessionUnbound sid => removeSession store sid
  | _ => store

/-- Fold the host wiring over an event list. -/
def applyEvents (store : SessionMap) (events : List Event) : SessionMap :=
  events.foldl applyEvent store

/-- The events the inline transport emits once a full frame is buffered:
checksum failure reports and consumes; success (or absent checksum)
acknowledges and delivers. -/
def inlineChecksumEvents (m : Metadata) (payload : List Nat) : List Event :=
  match m.checksum with
  | some expected =>
    if calculateCRC32 payload ≠ expected then
      [.onError ("Checksum mismatch: expected " ++ toString expected ++
        ", got " ++ toString (calculateCRC32 payload))]
    else [.ack m.sequenceNumber, .onSnapshot m payload]
  | none => [.ack m.sequenceNumber, .onSnapshot m payload]

/-- The events the file transport emits: ack-then-deliver on a successful
read, a single protocol error otherwise. -/
def fileTransportEvents (env : ParserEnv) (m : Metadata) : List Event :=
  match env.readFile m.filePath with
  | .ok data => [.ack m.sequenceNumber, .onSnapshot m data]
  | .error e => [.onError ("Failed to read file: " ++ e)]

/-- The events the mmap transport emits: ack-then-deliver on a successful
read, a single protocol error otherwise. -/
def mmapTransportEvents (env : ParserEnv) (m : Metadata) : List Event :=
  match readFromMmap env.mmap m.mmapName m.dataSize m.filePath with
  | .ok data => [.ack m.sequenceNumber, .onSnapshot m data]
  | .error e => [.onError ("Failed to read mmap: " ++ e)]

/-! Concrete environments and metadata used to exercise the theorems on
closed inputs.  The decoder is a finite table keyed on the raw line bytes. -/

/-- Metadata of an inline snapshot line (no checksum). -/
def sampleInlineMeta : Metadata :=
  { type := some "snapshot", sessionId := some "s1", sequenceNumber := some 1 }

/-- Metadata of an inline snapshot line carrying a wrong checksum. -/
def sampleBadChecksumMeta : Metadata :=
  { type := some "snapshot", sessionId := some "s2", sequenceNumber := some 2,
    checksum := some 1 }

/-- Metadata of a file-transport snapshot line. -/
def sampleFileMeta : Metadata :=
  { type := some "snapshot", sessionId := some "s3", sequenceNumber := some 3,
    transportMode := some "file", filePath := some "/tmp/x" }

/-- Metadata of an mmap-transport snapshot line. -/
def sampleMmapMeta : Metadata :=
  { type := some "snapshot", sessionId := some "s4", sequenceNumber := some 4,
    transportMode := some "mmap", mmapName := some "/m", dataSize := some 2 }

/-- A concrete parser environment: byte 115 decodes to an inline snapshot
line, 99 to a bad-checksum snapshot line, 105 to `initialized`, 102 to a
file snapshot line, 109 to an mmap snapshot line, 104 to `heartbeat`;
everything else is a JSON decode failure. -/
def sampleEnv : ParserEnv :=
  { defaultTransport := "stdin"
    version := "1.0.0"
    decode := fun bs =>
      if bs = [115] then .ok sampleInlineMeta
      else if bs = [99] then .ok sampleBadChecksumMeta
      else if bs = [105] then .ok { type := some "initialized" }
      else if bs = [102] then .ok sampleFileMeta
      else if bs = [109] then .ok sampleMmapMeta
      else if bs = [104] then .ok { type := some "heartbeat" }
      else .error "Unexpected token"
    readFile := fun p => if p = some "/tmp/x" then .ok [1, 2, 3] else .error "ENOENT"
    mmap :=
      { platform := .linux
        windowsAvailable := false
        readWindows := fun _ _ => .error "koffi unavailable"
        readOSFile := fun p => if p = "/dev/shm/m" then .ok [7, 8] else .error "ENOENT" } }

/-! Generic lemmas about the byte-level helpers. -/

theorem bufferIndexOf_eq_none {l : List Nat} (h : 10 ∉ l) : bufferIndexOf 10 l = none := by
  induction l with
  | nil => rfl
  | cons b bs ih =>
    simp only [List.mem_cons, not_or] at h
    simp [bufferIndexOf, Ne.symm h.1, ih h.2]

theorem bufferIndexOf_append {line : List Nat} (z : List Nat) (h : 10 ∉ line) :
    bufferIndexOf 10 (line ++ 10 :: z) = some line.length := by
  induction line with
  | nil => simp [bufferIndexOf]
  | cons b bs ih =>
    simp only [List.mem_cons, not_or] at h
    simp [bufferIndexOf, Ne.symm h.1, ih h.2]

theorem length_int64LE (n : Nat) : (int64LE n).length = 8 := by
  simp [int64LE]

theorem bytesToNatLE_int64LE {n : Nat} (h : n < 2 ^ 64) :
    bytesToNatLE (int64LE n) = n := by
  simp only [int64LE, bytesToNatLE]
  norm_num at h ⊢
  omega

theorem readBigInt64LE_encoded {pre post : List Nat} {n : Nat} (h : n < 2 ^ 63) :
    readBigInt64LE (pre ++ (int64LE n ++ post)) pre.length = n := by
  unfold readBigInt64LE
  rw [List.drop_left, List.take_left' (length_int64LE n),
    bytesToNatLE_int64LE (lt_trans h (by norm_num))]
  rw [if_pos h]

theorem jsIndex_of_le {len : Nat} {i : Int} (h0 : 0 ≤ i) (h1 : i ≤ len) :
    jsIndex len i = i.toNat := by
  unfold jsIndex
  rw [if_neg (by omega)]
  have : i.toNat ≤ len := by omega
  simp [Nat.min_def]
  omega

theorem prefix_split {p line z : List Nat} (h : p <+: line ++ 10 :: z) :
    p <+: line ∨ ∃ q, p = line ++ 10 :: q ∧ q <+: z := by
  by_cases hl : p.length ≤ line.length
  · exact Or.inl (List.prefix_of_prefix_length_le h (line.prefix_append _) hl)
  · right
    obtain ⟨t, rfl⟩ := List.prefix_of_prefix_length_le (line.prefix_append _) h (by omega)
    have ht : t <+: 10 :: z := (List.prefix_append_right_inj line).mp h
    match t, ht with
    | a :: t1, ht =>
      obtain ⟨rfl, hq⟩ := (List.cons_prefix_cons).mp ht
      exact ⟨t1, rfl, hq⟩
    | [], _ => simp at hl

theorem prefix_append_split {α : Type} {q a z : List α} (h : q <+: a ++ z)
    (hlen : a.length ≤ q.length) : ∃ r, q = a ++ r ∧ r <+: z := by
  obtain ⟨t, rfl⟩ := List.prefix_of_prefix_length_le (a.prefix_append _) h hlen
  exact ⟨t, rfl, (List.prefix_append_right_inj a).mp h⟩

theorem frame_take (line z : List Nat) : (line ++ 10 :: z).take line.length = line :=
  List.take_left' rfl

theorem frame_drop (line z : List Nat) : (line ++ 10 :: z).drop (line.length + 1) = z := by
  have h1 : line ++ 10 :: z = (line ++ [10]) ++ z := by simp
  rw [h1, List.drop_left' (by simp)]

theorem readBigInt64LE_frame {line r : List Nat} {n : Nat} (h : n < 2 ^ 63) :
    readBigInt64LE (line ++ 10 :: (int64LE n ++ r)) (line.length + 1) = n := by
  have h1 : line ++ 10 :: (int64LE n ++ r) = (line ++ [10]) ++ (int64LE n ++ r) := by simp
  have h2 : line.length + 1 = (line ++ [10]).length := by simp
  rw [h1, h2, readBigInt64LE_encoded h]

/-- While a well-formed inline snapshot frame is only partially buffered,
`parseMessage` reports "need more data" and leaves the state untouched. -/
theorem parseMessage_inline_incomplete (env : ParserEnv) {line payload p : List Nat}
    {m : Metadata} (s : ParserState)
    (hdec : env.decode line = .ok m) (hnl : 10 ∉ line)
    (hty : m.type = some "snapshot")
    (hfile : resolveTransportMode env.defaultTransport m ≠ "file")
    (hmmap : resolveTransportMode env.defaultTransport m ≠ "mmap")
    (hlen : payload.length < 2 ^ 53)
    (hpre : p <+: inlineFrame line payload)
    (hne : p ≠ inlineFrame line payload)
    (hbuf : s.buffer = p) :
    parseMessage env s = (false, s) := by
  rcases prefix_split (show p <+: line ++ 10 :: (int64LE payload.length ++ payload) from hpre)
    with hp | ⟨q, rfl, hq⟩
  · have h10 : 10 ∉ p := fun hx => hnl (hp.subset hx)
    unfold parseMessage
    rw [hbuf, bufferIndexOf_eq_none h10]
  · have hqne : q ≠ int64LE payload.length ++ payload := by
      intro h
      exact hne (by simp [inlineFrame, h])
    have hqlt : q.length < 8 + payload.length := by
      have hle := hq.length_le
      simp only [List.length_append, length_int64LE] at hle
      rcases eq_or_lt_of_le hle with heq | hlt
      · exact absurd (hq.eq_of_length (by simp [length_int64LE, heq])) hqne
      · exact hlt
    unfold parseMessage
    rw [hbuf, bufferIndexOf_append _ hnl]
    simp only [frame_take, frame_drop, hdec, hty, Option.some.injEq, String.reduceEq,
      reduceIte]
    unfold parseSnapshot
    rw [if_neg hfile, if_neg hmmap]
    simp only [hbuf]
    by_cases h8 : q.length < 8
    · rw [if_pos (by simp; omega)]
    · rw [if_neg (by simp; omega)]
      obtain ⟨r, rfl, hr⟩ := prefix_append_split hq (by rw [length_int64LE]; omega)
      have hrlt : r.length < payload.length := by
        simp only [List.length_append, length_int64LE] at hqlt
        omega
      rw [readBigInt64LE_frame (lt_trans hlen (by norm_num))]
      rw [if_pos (by push_cast; simp [length_int64LE]; omega)]

theorem drop_take_payload (line payload extra : List Nat) (n : Nat) :
    ((line ++ 10 :: (int64LE n ++ (payload ++ extra))).take
        (line.length + 9 + payload.length)).drop (line.length + 9) = payload := by
  have hA : line ++ 10 :: (int64LE n ++ (payload ++ extra))
      = (line ++ 10 :: int64LE n) ++ (payload ++ extra) := by simp
  have hAl : (line ++ 10 :: int64LE n).length = line.length + 9 := by
    simp [length_int64LE]
  rw [hA, ← List.take_drop, List.drop_left' hAl, List.take_left' rfl]

theorem drop_total (line payload extra : List Nat) (n : Nat) :
    (line ++ 10 :: (int64LE n ++ (payload ++ extra))).drop
      (line.length + 9 + payload.length) = extra := by
  have hA : line ++ 10 :: (int64LE n ++ (payload ++ extra))
      = (line ++ 10 :: (int64LE n ++ payload)) ++ extra := by simp
  rw [hA, List.drop_left' (by simp [length_int64LE]; omega)]

/-- Once a full inline snapshot frame (plus any trailing bytes) is buffered,
`parseMessage` consumes exactly the frame and emits the checksum-dependent
events atomically. -/
theorem parseMessage_inline_complete (env : ParserEnv) (line payload extra : List Nat)
    {m : Metadata} (s : ParserState)
    (hdec : env.decode line = .ok m) (hnl : 10 ∉ line)
    (hty : m.type = some "snapshot")
    (hfile : resolveTransportMode env.defaultTransport m ≠ "file")
    (hmmap : resolveTransportMode env.defaultTransport m ≠ "mmap")
    (hlen : payload.length < 2 ^ 53)
    (hbuf : s.buffer = inlineFrame line payload ++ extra) :
    parseMessage env s =
      (true, { s with
                buffer := extra,
                events := s.events ++ inlineChecksumEvents m payload }) := by
  have hbuf' : s.buffer = line ++ 10 :: (int64LE payload.length ++ (payload ++ extra)) := by
    simp [hbuf, inlineFrame]
  unfold parseMessage
  rw [hbuf', bufferIndexOf_append _ hnl]
  simp only [frame_take, frame_drop, hdec, hty, Option.some.injEq, String.reduceEq,
    reduceIte]
  unfold parseSnapshot
  rw [if_neg hfile, if_neg hmmap]
  simp only [hbuf']
  rw [if_neg (by simp [length_int64LE]; omega)]
  rw [readBigInt64LE_frame (lt_trans hlen (by norm_num))]
  rw [if_neg (by push_cast; simp [length_int64LE]; omega)]
  have hlen9 : ((line.length + 1 : Nat) : Int) + 8 + (payload.length : Int)
      ≤ ((line ++ 10 :: (int64LE payload.length ++ (payload ++ extra))).length : Int) := by
    push_cast
    simp [length_int64LE]
    omega
  have hsub : jsSubarray (line ++ 10 :: (int64LE payload.length ++ (payload ++ extra)))
      (((line.length + 1 : Nat) : Int) + 8)
      (((line.length + 1 : Nat) : Int) + 8 + (payload.length : Int)) = payload := by
    unfold jsSubarray
    rw [jsIndex_of_le (by push_cast; omega) hlen9,
      jsIndex_of_le (by push_cast; omega) (le_trans (by push_cast; omega) hlen9)]
    rw [show (((line.length + 1 : Nat) : Int) + 8 + (payload.length : Int)).toNat
        = line.length + 9 + payload.length by omega]
    rw [show (((line.length + 1 : Nat) : Int) + 8).toNat = line.length + 9 by omega]
    exact drop_take_payload line payload extra payload.length
  have hrest : jsSubarrayFrom (line ++ 10 :: (int64LE payload.length ++ (payload ++ extra)))
      (((line.length + 1 : Nat) : Int) + 8 + (payload.length : Int)) = extra := by
    unfold jsSubarrayFrom
    rw [jsIndex_of_le (by push_cast; omega) hlen9]
    rw [show (((line.length + 1 : Nat) : Int) + 8 + (payload.length : Int)).toNat
        = line.length + 9 + payload.length by omega]
    exact drop_total line payload extra payload.length
  rw [hsub, hrest]
  cases hc : m.checksum with
  | none => simp [inlineChecksumEvents, hc]
  | some expected =>
    simp only [inlineChecksumEvents, hc]
    split_ifs <;> rfl

theorem parseLoop_succ (env : ParserEnv) (f : Nat) (s : ParserState) :
    parseLoop env (f + 1) s =
      match parseMessage env s with
      | (false, s1) => some s1
      | (true, s1) => parseLoop env f s1 := rfl

theorem parseMessage_empty (env : ParserEnv) {s : ParserState} (hb : s.buffer = []) :
    parseMessage env s = (false, s) := by
  unfold parseMessage
  rw [hb]
  rfl

theorem parseLoop_done (env : ParserEnv) {f : Nat} (hf : 0 < f) {s : ParserState}
    (hb : s.buffer = []) : parseLoop env f s = some s := by
  obtain ⟨k, rfl⟩ : ∃ k, f = k + 1 := ⟨f - 1, by omega⟩
  rw [parseLoop_succ, parseMessage_empty env hb]

theorem parseLoop_mono (env : ParserEnv) {f f' : Nat} (hle : f ≤ f') :
    ∀ {s s' : ParserState}, parseLoop env f s = some s' → parseLoop env f' s = some s' := by
  induction f generalizing f' with
  | zero =>
    intro s s' h
    simp [parseLoop] at h
  | succ n ih =>
    intro s s' h
    obtain ⟨k, rfl⟩ : ∃ k, f' = k + 1 := ⟨f' - 1, by omega⟩
    rw [parseLoop_succ] at h ⊢
    cases hm : parseMessage env s with
    | mk b s1 =>
      cases b with
      | false => simpa [hm] using h
      | true => exact ih (by omega) (by simpa [hm] using h)

theorem processData_empty (env : ParserEnv) {s : ParserState} (hb : s.buffer = []) :
    processData env s [] = some s := by
  unfold processData
  have h1 : { s with buffer := s.buffer ++ ([] : List Nat) } = s := by simp
  rw [h1]
  exact parseLoop_done env (Nat.succ_pos _) hb

theorem feedAll_empty_chunks (env : ParserEnv) :
    ∀ (chunks : List (List Nat)) (s : ParserState), chunks.flatten = [] → s.buffer = [] →
      feedAll env s chunks = some s := by
  intro chunks
  induction chunks with
  | nil => intro s _ _; rfl
  | cons c cs ih =>
    intro s hj hb
    rw [List.flatten_cons, List.append_eq_nil] at hj
    have hpd : processData env s c = some s := by
      rw [hj.1]
      exact processData_empty env hb
    rw [feedAll, hpd]
    exact ih s hj.2 hb

/-- Feeding any chunk decomposition of one well-formed inline snapshot frame
after a proper prefix of it drains the whole frame and emits exactly the
checksum-dependent events. -/
theorem feedAll_inline_frame (env : ParserEnv) {line payload : List Nat} {m : Metadata}
    (hdec : env.decode line = .ok m) (hnl : 10 ∉ line)
    (hty : m.type = some "snapshot")
    (hfile : resolveTransportMode env.defaultTransport m ≠ "file")
    (hmmap : resolveTransportMode env.defaultTransport m ≠ "mmap")
    (hlen : payload.length < 2 ^ 53) :
    ∀ (chunks : List (List Nat)) (p : List Nat) (hs st : Bool) (ev : List Event),
      p ++ chunks.flatten = inlineFrame line payload →
      p ≠ inlineFrame line payload →
      feedAll env ⟨p, hs, st, ev⟩ chunks
        = some ⟨[], hs, st, ev ++ inlineChecksumEvents m payload⟩ := by
  intro chunks
  induction chunks with
  | nil =>
    intro p hs st ev hjoin hne
    exact absurd (by simpa using hjoin) hne
  | cons c cs ih =>
    intro p hs st ev hjoin hne
    rw [List.flatten_cons, ← List.append_assoc] at hjoin
    by_cases hq : p ++ c = inlineFrame line payload
    · have hcs : cs.flatten = [] := by
        rw [hq] at hjoin
        exact (List.append_right_eq_self).mp hjoin
      have hstep := parseMessage_inline_complete env line payload []
        (s := ⟨p ++ c, hs, st, ev⟩) hdec hnl hty hfile hmmap hlen (by simpa using hq)
      have hpd : processData env ⟨p, hs, st, ev⟩ c
          = some ⟨[], hs, st, ev ++ inlineChecksumEvents m payload⟩ := by
        unfold processData
        dsimp only
        rw [parseLoop_succ, hstep]
        dsimp only
        refine parseLoop_done env ?_ rfl
        have : (p ++ c).length = (inlineFrame line payload).length := by rw [hq]
        simp only [List.length_append] at this
        simp only [inlineFrame, List.length_append, List.length_cons, length_int64LE] at this
        omega
      rw [feedAll, hpd]
      exact feedAll_empty_chunks env cs _ hcs rfl
    · have hpre : p ++ c <+: inlineFrame line payload := ⟨cs.flatten, hjoin⟩
      have hstep := parseMessage_inline_incomplete env (s := ⟨p ++ c, hs, st, ev⟩)
        hdec hnl hty hfile hmmap hlen hpre hq rfl
      have hpd : processData env ⟨p, hs, st, ev⟩ c = some ⟨p ++ c, hs, st, ev⟩ := by
        unfold processData
        dsimp only
        rw [parseLoop_succ, hstep]
      rw [feedAll, hpd]
      exact ih (p ++ c) hs st ev hjoin hq

/-- C1: for every valid inline-transport snapshot frame (metadata line,
8-byte little-endian length, payload) and every way of splitting its bytes
into chunks across `processData` calls, a strictly partial frame makes
`parseMessage` return "need more data" with the state untouched, and any
complete chunking emits exactly one ack followed by exactly one snapshot
delivery of the frame's (metadata, payload), identical to feeding the whole
frame in a single call. -/
theorem inline_snapshot_chunking_invariant (env : ParserEnv)
    (line payload : List Nat) {m : Metadata}
    (hdec : env.decode line = .ok m) (hnl : 10 ∉ line)
    (hty : m.type = some "snapshot")
    (hfile : resolveTransportMode env.defaultTransport m ≠ "file")
    (hmmap : resolveTransportMode env.defaultTransport m ≠ "mmap")
    (hlen : payload.length < 2 ^ 53)
    (hcs : m.checksum = none ∨ m.checksum = some (calculateCRC32 payload)) :
    (∀ (s : ParserState) (p : List Nat), p <+: inlineFrame line payload →
      p ≠ inlineFrame line payload → s.buffer = p → parseMessage env s = (false, s))
    ∧ ∀ (hs st : Bool) (ev : List Event) (chunks : List (List Nat)),
        chunks.flatten = inlineFrame line payload →
        feedAll env ⟨[], hs, st, ev⟩ chunks
            = some ⟨[], hs, st, ev ++ [.ack m.sequenceNumber, .onSnapshot m payload]⟩
          ∧ feedAll env ⟨[], hs, st, ev⟩ chunks
            = feedAll env ⟨[], hs, st, ev⟩ [inlineFrame line payload] := by
  have hev : inlineChecksumEvents m payload
      = [.ack m.sequenceNumber, .onSnapshot m payload] := by
    rcases hcs with h | h
    · simp [inlineChecksumEvents, h]
    · simp [inlineChecksumEvents, h]
  constructor
  · intro s p hpre hne hbuf
    exact parseMessage_inline_incomplete env s hdec hnl hty hfile hmmap hlen hpre hne hbuf
  · intro hs st ev chunks hflat
    have hne : ([] : List Nat) ≠ inlineFrame line payload := by
      intro h
      have hl := congrArg List.length h
      simp [inlineFrame, length_int64LE] at hl
      omega
    have h1 := feedAll_inline_frame env hdec hnl hty hfile hmmap hlen chunks
      [] hs st ev (by simpa using hflat) hne
    have h2 := feedAll_inline_frame env hdec hnl hty hfile hmmap hlen
      [inlineFrame line payload] [] hs st ev (by simp) hne
    rw [hev] at h1 h2
    exact ⟨h1, h1.trans h2.symm⟩

/-- Witness for C1: a concrete 15-byte inline frame split into five chunks
is parsed identically to the single-call case, with one ack and one
delivery. -/
theorem inline_snapshot_chunking_invariant_witness :
    feedAll sampleEnv ⟨[], false, false, []⟩
        [[115], [10, 5, 0], [0, 0, 0, 0], [0, 0, 65], [66, 67, 68, 69]]
        = some ⟨[], false, false,
            [.ack (some 1), .onSnapshot sampleInlineMeta [65, 66, 67, 68, 69]]⟩
      ∧ feedAll sampleEnv ⟨[], false, false, []⟩
          [[115], [10, 5, 0], [0, 0, 0, 0], [0, 0, 65], [66, 67, 68, 69]]
        = feedAll sampleEnv ⟨[], false, false, []⟩
            [inlineFrame [115] [65, 66, 67, 68, 69]] :=
  (inline_snapshot_chunking_invariant sampleEnv [115] [65, 66, 67, 68, 69]
    (m := sampleInlineMeta) rfl (by decide) rfl
    (by decide) (by decide) (by decide) (Or.inl rfl)).2 false false []
    [[115], [10, 5, 0], [0, 0, 0, 0], [0, 0, 65], [66, 67, 68, 69]] (by decide)

/-- C2: an inline snapshot frame whose metadata checksum differs from the
CRC-32 of the payload produces no ack and no snapshot delivery — only a
protocol error naming expected vs actual — and still consumes the whole
frame; applying the resulting events to any session store leaves it
unchanged. -/
theorem checksum_mismatch_consumes_frame (env : ParserEnv)
    (line payload extra : List Nat) {m : Metadata} {c : Nat} (s : ParserState)
    (hdec : env.decode line = .ok m) (hnl : 10 ∉ line)
    (hty : m.type = some "snapshot")
    (hfile : resolveTransportMode env.defaultTransport m ≠ "file")
    (hmmap : resolveTransportMode env.defaultTransport m ≠ "mmap")
    (hlen : payload.length < 2 ^ 53)
    (hck : m.checksum = some c) (hcne : calculateCRC32 payload ≠ c)
    (hbuf : s.buffer = inlineFrame line payload ++ extra) :
    parseMessage env s = (true, { s with
        buffer := extra,
        events := s.events ++ [.onError ("Checksum mismatch: expected " ++ toString c
          ++ ", got " ++ toString (calculateCRC32 payload))] })
    ∧ ∀ (store : SessionMap),
        applyEvents store [.onError ("Checksum mismatch: expected " ++ toString c
          ++ ", got " ++ toString (calculateCRC32 payload))] = store := by
  constructor
  · have h := parseMessage_inline_complete env line payload extra s hdec hnl hty hfile
      hmmap hlen hbuf
    rw [h]
    simp [inlineChecksumEvents, hck, hcne]
  · intro store
    rfl

/-- Witness for C2: a concrete inline frame with checksum 1 over payload
"AB" is consumed whole, emitting only the mismatch error, and the error
leaves an empty store empty. -/
theorem checksum_mismatch_consumes_frame_witness :
    parseMessage sampleEnv ⟨inlineFrame [99] [65, 66], false, false, []⟩
        = (true, ⟨[], false, false, [.onError ("Checksum mismatch: expected "
            ++ toString (1 : Nat) ++ ", got " ++ toString (calculateCRC32 [65, 66]))]⟩)
      ∧ applyEvents [] [.onError ("Checksum mismatch: expected " ++ toString (1 : Nat)
          ++ ", got " ++ toString (calculateCRC32 [65, 66]))] = [] :=
  ⟨(checksum_mismatch_consumes_frame sampleEnv [99] [65, 66] []
      (m := sampleBadChecksumMeta) (c := 1)
      (s := ⟨inlineFrame [99] [65, 66], false, false, []⟩) rfl (by decide) rfl
      (by decide) (by decide) (by decide) rfl (by decide) (by simp)).1,
    (checksum_mismatch_consumes_frame sampleEnv [99] [65, 66] []
      (m := sampleBadChecksumMeta) (c := 1)
      (s := ⟨inlineFrame [99] [65, 66], false, false, []⟩) rfl (by decide) rfl
      (by decide) (by decide) (by decide) rfl (by decide) (by simp)).2 []⟩

/-- C7: a buffered line that fails JSON decoding is reported as a protocol
error, exactly that one line (up to and including its newline) is consumed,
and the loop continues with the rest of the buffer. -/
theorem bad_json_line_skipped (env : ParserEnv) (bad rest : List Nat) {e : String}
    (s : ParserState) (hdec : env.decode bad = .error e) (hnl : 10 ∉ bad)
    (hbuf : s.buffer = bad ++ 10 :: rest) :
    parseMessage env s = (true, { s with
        buffer := rest,
        events := s.events ++ [.onError ("Failed to parse JSON metadata: " ++ e)] })
    ∧ ∀ f, parseLoop env (f + 1) s
        = parseLoop env f { s with
            buffer := rest,
            events := s.events ++ [.onError ("Failed to parse JSON metadata: " ++ e)] } := by
  have h1 : parseMessage env s = (true, { s with
      buffer := rest,
      events := s.events ++ [.onError ("Failed to parse JSON metadata: " ++ e)] }) := by
    unfold parseMessage
    rw [hbuf, bufferIndexOf_append _ hnl]
    simp only [frame_take, frame_drop, hdec]
  exact ⟨h1, fun f => by rw [parseLoop_succ, h1]⟩

/-- Witness for C7: a concrete undecodable line followed by a heartbeat
frame is dropped with a protocol error, leaving the heartbeat buffered. -/
theorem bad_json_line_skipped_witness :
    parseMessage sampleEnv ⟨[98, 10, 104, 10], false, false, []⟩
      = (true, ⟨[104, 10], false, false,
          [.onError ("Failed to parse JSON metadata: " ++ "Unexpected token")]⟩) :=
  (bad_json_line_skipped sampleEnv [98] [104, 10]
    (e := "Unexpected token") ⟨[98, 10, 104, 10], false, false, []⟩ rfl
    (by decide) rfl).1

/-- C3 (the code deviates here): feeding two `initialized` lines makes the
parser invoke the onInitialized callback twice — the `initialized` branch of
parseMessage sets `handshakeComplete` but never consults it, so there is no
handshake-state guard; the only deduplication lives in the host's separate
`serverStarted` boolean. -/
theorem initialized_twice_fires_twice :
    processData sampleEnv ⟨[], false, false, []⟩ [105, 10, 105, 10]
      = some ⟨[], true, false, [.onInitialized, .onInitialized]⟩ := by decide

theorem parseSnapshot_handshake_mono (env : ParserEnv) (m : Metadata)
    (newlineIndex : Nat) (s : ParserState) (h : s.handshakeComplete = true) :
    (parseSnapshot env m newlineIndex s).2.handshakeComplete = true := by
  unfold parseSnapshot
  dsimp only
  repeat' split
  all_goals exact h

theorem parseMessage_handshake_mono (env : ParserEnv) (s : ParserState)
    (h : s.handshakeComplete = true) :
    (parseMessage env s).2.handshakeComplete = true := by
  unfold parseMessage
  dsimp only
  repeat' split
  all_goals first | exact h | rfl | exact parseSnapshot_handshake_mono env _ _ s h

theorem parseLoop_handshake_mono (env : ParserEnv) {f : Nat} {s s' : ParserState}
    (hl : parseLoop env f s = some s') (h : s.handshakeComplete = true) :
    s'.handshakeComplete = true := by
  induction f generalizing s with
  | zero => simp [parseLoop] at hl
  | succ n ih =>
    rw [parseLoop_succ] at hl
    rcases hpm : parseMessage env s with ⟨b, s1⟩
    have h1 : s1.handshakeComplete = true := by
      have h2 := parseMessage_handshake_mono env s h
      rw [hpm] at h2
      exact h2
    rw [hpm] at hl
    cases b with
    | false =>
      cases hl
      exact h1
    | true => exact ih hl h1

theorem feedAll_handshake_mono (env : ParserEnv) :
    ∀ (chunks : List (List Nat)) {s s' : ParserState},
      feedAll env s chunks = some s' → s.handshakeComplete = true →
      s'.handshakeComplete = true := by
  intro chunks
  induction chunks with
  | nil =>
    intro s s' hf h
    cases hf
    exact h
  | cons c cs ih =>
    intro s s' hf h
    rw [feedAll] at hf
    rcases hpd : processData env s c with _ | s1
    · rw [hpd] at hf
      cases hf
    · rw [hpd] at hf
      exact ih hf (parseLoop_handshake_mono env hpd h)

/-- C9: the handshake state is monotonic — once an `initialized` line sets
it, no later message, decode error, or `stop()` call makes `isReady` return
false again. -/
theorem handshake_state_monotonic (env : ParserEnv) :
    (∀ s : ParserState, isReady (stopParser s) = isReady s)
    ∧ (∀ s : ParserState, s.handshakeComplete = true →
        (parseMessage env s).2.handshakeComplete = true)
    ∧ (∀ (f : Nat) (s s' : ParserState), parseLoop env f s = some s' →
        s.handshakeComplete = true → s'.handshakeComplete = true)
    ∧ (∀ (s : ParserState) (d : List Nat) (s' : ParserState),
        processData env s d = some s' → isReady s = true → isReady s' = true)
    ∧ ∀ (s : ParserState) (chunks : List (List Nat)) (s' : ParserState),
        feedAll env s chunks = some s' → isReady s = true → isReady s' = true :=
  ⟨fun _ => rfl,
   fun s h => parseMessage_handshake_mono env s h,
   fun _ s s' hl h => parseLoop_handshake_mono env hl h,
   fun s d s' hp h => parseLoop_handshake_mono env hp h,
   fun s chunks s' hf h => feedAll_handshake_mono env chunks hf h⟩

/-- Witness for C9: a ready parser stays ready across a heartbeat frame. -/
theorem handshake_state_monotonic_witness :
    processData sampleEnv ⟨[], true, false, []⟩ [104, 10]
        = some ⟨[], true, false, [.pong, .onHeartbeat]⟩
      ∧ isReady (⟨[], true, false, [.pong, .onHeartbeat]⟩ : ParserState) = true :=
  ⟨by decide,
   (handshake_state_monotonic sampleEnv).2.2.2.1 ⟨[], true, false, []⟩ [104, 10]
     ⟨[], true, false, [.pong, .onHeartbeat]⟩ (by decide) rfl⟩

/-! Session registry lemmas. -/

theorem mapGet_mapSet (m : SessionMap) (k : Option String) (v : SessionSnapshot) :
    mapGet (mapSet m k v) k = some v := by
  induction m with
  | nil => simp [mapSet, mapGet]
  | cons p t ih =>
    by_cases hp : p.1 == k
    · have hany : (p :: t).any (fun q => q.1 == k) = true := by
        simp [List.any_cons, hp]
      unfold mapSet
      rw [if_pos hany]
      simp only [List.map_cons, hp, if_pos]
      unfold mapGet
      rw [List.find?_cons_of_pos _ (by simp)]
    · by_cases hta : t.any (fun q => q.1 == k)
      · have hany : (p :: t).any (fun q => q.1 == k) = true := by
          simp [List.any_cons, hta]
        unfold mapSet
        rw [if_pos hany]
        simp only [List.map_cons, hp, if_neg]
        unfold mapGet
        rw [List.find?_cons_of_neg _ (by simp [hp])]
        have ih2 := ih
        unfold mapSet at ih2
        rw [if_pos hta] at ih2
        exact ih2
      · have hany : (p :: t).any (fun q => q.1 == k) = false := by
          simp only [List.any_cons, Bool.or_eq_false_iff]
          exact ⟨Bool.eq_false_iff.mpr hp, Bool.eq_false_iff.mpr hta⟩
        unfold mapSet
        rw [if_neg (by simp [hany])]
        have h2 : (p :: t) ++ [(k, v)] = p :: (t ++ [(k, v)]) := rfl
        rw [h2]
        unfold mapGet
        rw [List.find?_cons_of_neg _ (by simp [hp])]
        have ih2 := ih
        unfold mapSet at ih2
        rw [if_neg (by simp [hta])] at ih2
        exact ih2

theorem mapSet_keys_of_mem {m : SessionMap} {k : Option String} {v : SessionSnapshot}
    (hany : m.any (fun p => p.1 == k) = true) :
    (mapSet m k v).map Prod.fst = m.map Prod.fst := by
  unfold mapSet
  rw [if_pos hany, List.map_map]
  apply List.map_congr_left
  intro p _
  by_cases hp : p.1 == k
  · simp only [Function.comp_apply, hp, if_pos]
    exact (beq_iff_eq.mp hp).symm
  · have hp2 : ¬ p.1 = k := by simpa using hp
    simp [Function.comp_apply, hp2]

theorem mapSet_keys_nodup {m : SessionMap} {k : Option String} {v : SessionSnapshot}
    (h : (m.map Prod.fst).Nodup) : ((mapSet m k v).map Prod.fst).Nodup := by
  by_cases hany : m.any (fun p => p.1 == k) = true
  · rw [mapSet_keys_of_mem hany]
    exact h
  · unfold mapSet
    rw [if_neg hany, List.map_append]
    simp only [List.map_cons, List.map_nil]
    refine List.Nodup.append h (List.nodup_singleton k) ?_
    intro a ha hb
    simp only [List.mem_singleton] at hb
    subst hb
    simp only [List.mem_map] at ha
    obtain ⟨p, hpm, hpk⟩ := ha
    simp only [List.any_eq_true, Bool.not_eq_true] at hany
    exact hany ⟨p, hpm, by simp [hpk]⟩

theorem filter_mapSet {m : SessionMap} (k : Option String) (v : SessionSnapshot)
    (h : (m.map Prod.fst).Nodup) :
    (mapSet m k v).filter (fun p => p.1 == k) = [(k, v)] := by
  induction m with
  | nil => simp [mapSet]
  | cons p t ih =>
    simp only [List.map_cons, List.nodup_cons] at h
    by_cases hp : p.1 == k
    · have hk : p.1 = k := beq_iff_eq.mp hp
      have ht : ∀ q ∈ t, ¬(q.1 == k) = true := by
        intro q hq hbq
        have hqk : q.1 = k := beq_iff_eq.mp hbq
        exact h.1 (by
          rw [hk]
          exact List.mem_map.mpr ⟨q, hq, hqk⟩)
      have hany : (p :: t).any (fun q => q.1 == k) = true := by
        simp [List.any_cons, hp]
      unfold mapSet
      rw [if_pos hany]
      simp only [List.map_cons, hp, if_pos]
      have hmap : t.map (fun q => if q.1 == k then (k, v) else q) = t := by
        apply List.map_congr_left ?_ |>.trans t.map_id
        intro q hq
        simp [ht q hq]
      rw [hmap, List.filter_cons_of_pos (by simp)]
      rw [List.filter_eq_nil_iff.mpr ht]
    · by_cases hta : t.any (fun q => q.1 == k)
      · have hany : (p :: t).any (fun q => q.1 == k) = true := by
          simp [List.any_cons, hta]
        unfold mapSet
        rw [if_pos hany]
        simp only [List.map_cons, hp, if_neg]
        rw [List.filter_cons_of_neg (by simp [hp])]
        have ih2 := ih h.2
        unfold mapSet at ih2
        rw [if_pos hta] at ih2
        exact ih2
      · have hany : (p :: t).any (fun q => q.1 == k) = false := by
          simp only [List.any_cons, Bool.or_eq_false_iff]
          exact ⟨Bool.eq_false_iff.mpr hp, Bool.eq_false_iff.mpr hta⟩
        unfold mapSet
        rw [if_neg (by simp [hany])]
        have h2 : (p :: t) ++ [(k, v)] = p :: (t ++ [(k, v)]) := rfl
        rw [h2, List.filter_cons_of_neg (by simp [hp])]
        have ih2 := ih h.2
        unfold mapSet at ih2
        rw [if_neg (by simp [hta])] at ih2
        exact ih2

/-- C4: upserting the same sessionId twice leaves exactly one record under
that id — the record built entirely from the second call's metadata and
payload, with the unseen flag set — and `getSession` returns it. -/
theorem upsert_twice_single_record (store : SessionMap) (sid : Option String)
    (m1 m2 : Metadata) (d1 d2 : List Nat)
    (h : (store.map Prod.fst).Nodup) :
    (updateSnapshot (updateSnapshot store sid m1 d1) sid m2 d2).filter
        (fun p => p.1 == sid) = [(sid, mkSessionSnapshot sid m2 d2)]
    ∧ getSession (updateSnapshot (updateSnapshot store sid m1 d1) sid m2 d2) sid
        = some (mkSessionSnapshot sid m2 d2)
    ∧ (mkSessionSnapshot sid m2 d2).hasUpdate = true :=
  ⟨filter_mapSet sid _ (mapSet_keys_nodup h),
   mapGet_mapSet _ sid _,
   rfl⟩

/-- Witness for C4: two concrete upserts under one id leave a single record
holding the second payload. -/
theorem upsert_twice_single_record_witness :
    (updateSnapshot (updateSnapshot [] (some "s1") sampleInlineMeta [1])
        (some "s1") sampleInlineMeta [2, 3]).filter (fun p => p.1 == some "s1")
      = [(some "s1", mkSessionSnapshot (some "s1") sampleInlineMeta [2, 3])]
    ∧ getSession (updateSnapshot (updateSnapshot [] (some "s1") sampleInlineMeta [1])
        (some "s1") sampleInlineMeta [2, 3]) (some "s1")
      = some (mkSessionSnapshot (some "s1") sampleInlineMeta [2, 3])
    ∧ (mkSessionSnapshot (some "s1") sampleInlineMeta [2, 3]).hasUpdate = true :=
  upsert_twice_single_record [] (some "s1") sampleInlineMeta sampleInlineMeta
    [1] [2, 3] (by simp)

/-- C8 counterexample: two snapshot metadata values that differ only in their
transport-specific fields (transportMode, filePath, mmapName, dataSize,
checksum) produce identical stored records, so the registry record cannot
contain those fields. -/
theorem stored_record_drops_transport_fields :
    ({ type := some "snapshot", sessionId := some "s1", transportMode := some "stdin",
       filePath := some "/tmp/p", mmapName := some "/m", dataSize := some 4,
       checksum := some 7 } : Metadata)
      ≠ ({ type := some "snapshot", sessionId := some "s1" } : Metadata)
    ∧ updateSnapshot [] (some "s1")
        { type := some "snapshot", sessionId := some "s1",
          transportMode := some "stdin", filePath := some "/tmp/p",
          mmapName := some "/m", dataSize := some 4, checksum := some 7 } [1, 2]
      = updateSnapshot [] (some "s1")
          { type := some "snapshot", sessionId := some "s1" } [1, 2] :=
  ⟨by decide, rfl⟩

/-- C8 (amended): the stored record consists of exactly sessionId,
documentType, originalPath, outputFormat, mimeType, timestamp,
sequenceNumber, the raw payload, and unseen = true; transport-specific
metadata fields are not persisted. -/
theorem stored_record_fields (store : SessionMap) (sid : Option String)
    (m : Metadata) (d : List Nat) :
    getSession (updateSnapshot store sid m d) sid
      = some { sessionId := sid, documentType := m.documentType,
               originalPath := m.originalPath, outputFormat := m.outputFormat,
               mimeType := m.mimeType, timestamp := m.timestamp,
               sequenceNumber := m.sequenceNumber, data := d, hasUpdate := true } :=
  mapGet_mapSet store sid (mkSessionSnapshot sid m d)

/-- C10: a command message without a commandId produces no command_result at
all, while a command with a commandId but an unrecognized commandType gets a
command_result with success = false and an error naming the unknown type. -/
theorem command_without_id_dropped (version : String) (m : Metadata) :
    (strFalsy m.commandId = true → handleCommand version m = [])
    ∧ ∀ cid, m.commandId = some cid → cid ≠ "" → m.commandType ≠ some "get_version" →
        handleCommand version m
          = [.commandResult cid false none
              (some ("Unknown command type: " ++ jsShow m.commandType))] := by
  constructor
  · intro h
    unfold handleCommand
    cases hc : m.commandId with
    | none => rfl
    | some cid =>
      rw [hc] at h
      simp only [strFalsy, decide_eq_true_eq] at h
      simp [h]
  · intro cid hc hne hty
    unfold handleCommand
    rw [hc]
    simp [hne, hty]

/-- Witness for C10: a concrete command without an id is dropped; a concrete
unknown command type gets a failed command_result naming it. -/
theorem command_without_id_dropped_witness :
    handleCommand "1.0.0" { type := some "command" } = []
    ∧ handleCommand "1.0.0"
        { type := some "command", commandId := some "c1", commandType := some "bogus" }
      = [.commandResult "c1" false none
          (some ("Unknown command type: " ++ jsShow (some "bogus")))] :=
  ⟨(command_without_id_dropped "1.0.0" { type := some "command" }).1 rfl,
   (command_without_id_dropped "1.0.0"
      { type := some "command", commandId := some "c1", commandType := some "bogus" }).2
     "c1" rfl (by decide) (by decide)⟩

/-- C5: for a snapshot message whose resolved transportMode is file or mmap,
the metadata line is consumed immediately regardless of the read's outcome;
a failed read reports a single protocol error carrying the underlying cause
(no ack, no snapshot callback), a successful read emits an ack carrying the
message's sequenceNumber and then delivers (metadata, data); and platforms
without a working shared-memory implementation fail closed with an explicit
error. -/
theorem file_mmap_transport_dispatch (env : ParserEnv) (line rest : List Nat)
    {m : Metadata} (s : ParserState)
    (hdec : env.decode line = .ok m) (hnl : 10 ∉ line)
    (hty : m.type = some "snapshot")
    (hbuf : s.buffer = line ++ 10 :: rest) :
    (resolveTransportMode env.defaultTransport m = "file" →
      parseMessage env s = (true, { s with
        buffer := rest,
        events := s.events ++ fileTransportEvents env m }))
    ∧ (resolveTransportMode env.defaultTransport m = "mmap" →
      parseMessage env s = (true, { s with
        buffer := rest,
        events := s.events ++ mmapTransportEvents env m }))
    ∧ (∀ e : String, env.readFile m.filePath = .error e →
        fileTransportEvents env m = [.onError ("Failed to read file: " ++ e)])
    ∧ (∀ d : List Nat, env.readFile m.filePath = .ok d →
        fileTransportEvents env m = [.ack m.sequenceNumber, .onSnapshot m d])
    ∧ (∀ e : String, readFromMmap env.mmap m.mmapName m.dataSize m.filePath = .error e →
        mmapTransportEvents env m = [.onError ("Failed to read mmap: " ++ e)])
    ∧ (∀ d : List Nat, readFromMmap env.mmap m.mmapName m.dataSize m.filePath = .ok d →
        mmapTransportEvents env m = [.ack m.sequenceNumber, .onSnapshot m d])
    ∧ (env.mmap.platform = .win32 → env.mmap.windowsAvailable = false →
        readFromMmap env.mmap m.mmapName m.dataSize m.filePath
          = .error ("Windows shared memory support not available. " ++
              "Please install koffi (npm install koffi), or use stdin/file transport mode."))
    ∧ ∀ name, env.mmap.platform = .other name →
        readFromMmap env.mmap m.mmapName m.dataSize m.filePath
          = .error ("Memory-mapped transport is not supported on platform: " ++ name ++
              ". Please use stdin or file transport mode instead.") := by
  refine ⟨?_, ?_, ?_, ?_, ?_, ?_, ?_, ?_⟩
  · intro hm
    unfold parseMessage
    rw [hbuf, bufferIndexOf_append _ hnl]
    simp only [frame_take, frame_drop, hdec, hty, Option.some.injEq, String.reduceEq,
      reduceIte]
    unfold parseSnapshot
    rw [if_pos hm]
    simp only [hbuf, frame_drop]
    unfold fileTransportEvents
    cases hr : env.readFile m.filePath <;> rfl
  · intro hm
    unfold parseMessage
    rw [hbuf, bufferIndexOf_append _ hnl]
    simp only [frame_take, frame_drop, hdec, hty, Option.some.injEq, String.reduceEq,
      reduceIte]
    unfold parseSnapshot
    rw [if_neg (by rw [hm]; decide), if_pos hm]
    simp only [hbuf, frame_drop]
    unfold mmapTransportEvents
    cases hr : readFromMmap env.mmap m.mmapName m.dataSize m.filePath <;> rfl
  · intro e he
    unfold fileTransportEvents
    rw [he]
  · intro d hd
    unfold fileTransportEvents
    rw [hd]
  · intro e he
    unfold mmapTransportEvents
    rw [he]
  · intro d hd
    unfold mmapTransportEvents
    rw [hd]
  · intro hp hw
    unfold readFromMmap
    rw [hp, hw]
    rfl
  · intro name hp
    unfold readFromMmap
    rw [hp]

/-- Witness for C5: a concrete file-mode snapshot line whose read succeeds
is acked (sequence 3) and delivered; a concrete mmap-mode line on the linux
platform reads from /dev/shm and is acked (sequence 4) and delivered. -/
theorem file_mmap_transport_dispatch_witness :
    parseMessage sampleEnv ⟨[102, 10, 104, 10], false, false, []⟩
        = (true, ⟨[104, 10], false, false,
            [.ack (some 3), .onSnapshot sampleFileMeta [1, 2, 3]]⟩)
      ∧ parseMessage sampleEnv ⟨[109, 10], false, false, []⟩
        = (true, ⟨[], false, false,
            [.ack (some 4), .onSnapshot sampleMmapMeta [7, 8]]⟩) :=
  ⟨(file_mmap_transport_dispatch sampleEnv [102] [104, 10]
      (m := sampleFileMeta) ⟨[102, 10, 104, 10], false, false, []⟩ rfl (by decide)
      rfl rfl).1 rfl,
   (file_mmap_transport_dispatch sampleEnv [109] []
      (m := sampleMmapMeta) ⟨[109, 10], false, false, []⟩ rfl (by decide)
      rfl rfl).2.1 rfl⟩

/-! CRC-32 equivalence: the table-driven implementation computes the
reference bitwise reflected CRC-32.  The key facts are that the bit-step is
linear over XOR and that eight bit-steps of `2^8 * q` recover `q`. -/

theorem crc32Step_xor (a b : Nat) : crc32Step (a ^^^ b) = crc32Step a ^^^ crc32Step b := by
  have hd : (a ^^^ b) / 2 = a / 2 ^^^ b / 2 := Nat.xor_div_two
  have hm : (a ^^^ b) % 2 = (a + b) % 2 := Nat.xor_mod_two_eq
  unfold crc32Step
  rcases Nat.mod_two_eq_zero_or_one a with ha | ha
  · rcases Nat.mod_two_eq_zero_or_one b with hb | hb
    · rw [if_neg (by omega), if_neg (by omega), if_neg (by omega)]
      exact hd
    · rw [if_pos (by omega), if_neg (by omega), if_pos hb, hd,
        ← Nat.xor_assoc, Nat.xor_comm 0xedb88320 (a / 2), Nat.xor_assoc]
  · rcases Nat.mod_two_eq_zero_or_one b with hb | hb
    · rw [if_pos (by omega), if_pos ha, if_neg (by omega), hd, ← Nat.xor_assoc]
    · rw [if_neg (by omega), if_pos ha, if_pos hb, hd,
        Nat.xor_comm 0xedb88320 (a / 2), Nat.xor_assoc, Nat.xor_cancel_left]

theorem crc32Step_iterate_xor (n a b : Nat) :
    crc32Step^[n] (a ^^^ b) = crc32Step^[n] a ^^^ crc32Step^[n] b := by
  induction n generalizing a b with
  | zero => rfl
  | succ k ih =>
    rw [Function.iterate_succ_apply, Function.iterate_succ_apply,
      Function.iterate_succ_apply, crc32Step_xor]
    exact ih _ _

theorem crc32Step_iterate_shift (k q : Nat) : crc32Step^[k] (2 ^ k * q) = q := by
  induction k with
  | zero => simp
  | succ n ih =>
    rw [Function.iterate_succ_apply]
    have h2 : 2 ^ (n + 1) * q = 2 * (2 ^ n * q) := by ring
    have hstep : crc32Step (2 ^ (n + 1) * q) = 2 ^ n * q := by
      unfold crc32Step
      rw [h2, Nat.mul_mod_right, if_neg (by omega),
        Nat.mul_div_cancel_left _ (by norm_num)]
    rw [hstep, ih]

theorem two_pow_ge_256 {j : Nat} (hj : 8 ≤ j) : (256 : Nat) ≤ 2 ^ j := by
  calc (256 : Nat) = 2 ^ 8 := by norm_num
    _ ≤ 2 ^ j := Nat.pow_le_pow_right (by norm_num) hj

theorem mul256_add_eq_xor (q r : Nat) (h : r < 256) :
    2 ^ 8 * q + r = 2 ^ 8 * q ^^^ r := by
  apply Nat.eq_of_testBit_eq
  intro j
  rw [Nat.testBit_xor, Nat.testBit_mul_pow_two_add q (show r < 2 ^ 8 by omega) j,
    Nat.testBit_mul_pow_two]
  by_cases hj : j < 8
  · simp [hj, show ¬ j ≥ 8 by omega]
  · have hr : r.testBit j = false :=
      Nat.testBit_lt_two_pow (lt_of_lt_of_le h (two_pow_ge_256 (by omega)))
    simp [hj, show j ≥ 8 by omega, hr]

theorem crc32Step_iterate8_eq (x : Nat) :
    crc32Step^[8] x = x / 256 ^^^ crc32TableEntry (x % 256) := by
  have h256 : (2 : Nat) ^ 8 = 256 := by norm_num
  have hx : x = 2 ^ 8 * (x / 256) ^^^ x % 256 := by
    rw [← mul256_add_eq_xor _ _ (Nat.mod_lt _ (by norm_num)), h256]
    omega
  calc crc32Step^[8] x
      = crc32Step^[8] (2 ^ 8 * (x / 256) ^^^ x % 256) := by rw [← hx]
    _ = crc32Step^[8] (2 ^ 8 * (x / 256)) ^^^ crc32Step^[8] (x % 256) :=
        crc32Step_iterate_xor 8 _ _
    _ = x / 256 ^^^ crc32TableEntry (x % 256) := by
        rw [crc32Step_iterate_shift]
        rfl

theorem crc32Table_getD {i : Nat} (h : i < 256) :
    crc32Table.getD i 0 = crc32TableEntry i := by
  unfold crc32Table
  rw [List.getD_eq_getElem?_getD, List.getElem?_map, List.getElem?_range h]
  rfl

theorem crc32_update_eq (crc b : Nat) (hb : b < 256) :
    (crc / 256) ^^^ crc32Table.getD ((crc ^^^ b) % 256) 0 = crc32Step^[8] (crc ^^^ b) := by
  rw [crc32Table_getD (Nat.mod_lt _ (by norm_num)), crc32Step_iterate8_eq]
  have h1 : (crc ^^^ b) / 256 = crc / 256 := by
    have h2 : ∀ x : Nat, x / 256 = x >>> 8 := fun x => by
      rw [Nat.shiftRight_eq_div_pow]
    rw [h2, h2]
    apply Nat.eq_of_testBit_eq
    intro j
    rw [Nat.testBit_shiftRight, Nat.testBit_shiftRight, Nat.testBit_xor]
    have hbj : b.testBit (8 + j) = false :=
      Nat.testBit_lt_two_pow (lt_of_lt_of_le hb (two_pow_ge_256 (by omega)))
    simp [hbj]
  rw [h1]

theorem crc32_fold_eq (data : List Nat) :
    ∀ crc, (∀ b ∈ data, b < 256) →
    data.foldl (fun crc b => (crc / 256) ^^^ (crc32Table.getD ((crc ^^^ b) % 256) 0)) crc
      = data.foldl (fun crc b => crc32Step^[8] (crc ^^^ b)) crc := by
  induction data with
  | nil =>
    intro crc _
    rfl
  | cons b t ih =>
    intro crc h
    simp only [List.foldl_cons]
    rw [crc32_update_eq crc b (h b (List.mem_cons_self b t))]
    exact ih _ (fun x hx => h x (List.mem_cons_of_mem b hx))

/-- C6: on byte sequences, `calculateCRC32` computes the standard reflected
CRC-32 with polynomial 0xEDB88320 and initial/final XOR 0xFFFFFFFF — it
equals the reference bitwise CRC-32 — via a 256-entry lookup table whose
i-th entry is the eight-fold bit-step of i. -/
theorem crc32_matches_reference (data : List Nat) (h : ∀ b ∈ data, b < 256) :
    calculateCRC32 data = crc32Spec data
    ∧ crc32Table.length = 256
    ∧ ∀ i, i < 256 → crc32Table.getD i 0 = crc32Step^[8] i := by
  refine ⟨?_, by simp [crc32Table], fun i hi => crc32Table_getD hi⟩
  unfold calculateCRC32 crc32Spec
  rw [crc32_fold_eq data 0xffffffff h]

/-- Witness for C6 at the standard CRC-32 check vector "123456789". -/
theorem crc32_matches_reference_witness :
    calculateCRC32 [49, 50, 51, 52, 53, 54, 55, 56, 57]
      = crc32Spec [49, 50, 51, 52, 53, 54, 55, 56, 57] :=
  (crc32_matches_reference [49, 50, 51, 52, 53, 54, 55, 56, 57] (by decide)).1

end AsposePreview
